import Mathlib

/-!
Verification development for `misc/python/materialize/cli/ci_annotate_errors.py`.

The Python program scans CI log files for fatal-error signatures, correlates
multi-line service panics, classifies the resulting error texts against a
registry of known GitHub issues, and aggregates identical records.

Shallow embedding conventions:
* log bytes are modelled as `List Char` (the program only ever treats them as
  opaque byte sequences and ASCII literals);
* the two small line regexes (`PANIC_IN_SERVICE_START_RE`,
  `SERVICES_LOG_LINE_RE`) are translated into executable backtracking parsers
  that follow Python `re` semantics (leftmost match at position 0, greedy
  `[^ ]*` with backtracking, alternation tried left to right, `.` does not
  match a newline);
* `IGNORE_RE` is a large alternation without anchors; `IGNORE_RE.search` is
  modelled alternative by alternative (literal pieces become literal-prefix
  checks, `.*` becomes a newline-free gap, `\d+` a digit run), searched at
  every start position;
* `ERROR_RE.finditer` (a buffer-global regex iteration) and the externally
  supplied issue patterns and text transform (`materialize.github.for_github_re`,
  whose code is outside this repository) are abstracted as function parameters;
* Python `assert` failures become `Except.error` values that carry the data
  the assertion message interpolates.
-/

/-- Log bytes, modelled as a list of characters. -/
abbrev Bytes := List Char

/-- Conversion from a string literal to `Bytes`. -/
def bs (s : String) : Bytes := s.data

/-- Python `\s` on bytes: space, tab, newline, carriage return, vertical tab,
form feed. -/
def isPySpace (c : Char) : Bool :=
  c == ' ' || c == '\t' || c == '\n' || c == '\r' || c == '\x0b' || c == '\x0c'

/-- Match a literal sequence at the start of the input, returning the rest. -/
def litMatch : Bytes → Bytes → Option Bytes
  | [], l => some l
  | _ :: _, [] => none
  | c :: w, d :: l => if c = d then litMatch w l else none

/-- Python `.rstrip(b"\n")`: drop all trailing newline bytes. -/
def rstripNl (l : Bytes) : Bytes := (l.reverse.dropWhile (· == '\n')).reverse

/-- Regex `.*` followed by a continuation: some split point such that the
skipped gap contains no newline (Python `.` does not match `\n`) and the
continuation matches there. -/
def gapThen (p : Bytes → Bool) : Bytes → Bool
  | [] => p []
  | c :: r => p (c :: r) || (decide (c ≠ '\n') && gapThen p r)

/-- Unanchored search: try a match at every start position (Python
`re.search`). -/
def anySuffix (p : Bytes → Bool) : Bytes → Bool
  | [] => p []
  | c :: r => p (c :: r) || anySuffix p r

/-!
The two per-line regexes of the panic correlator.

`PANIC_IN_SERVICE_START_RE = rb"^(\[)?(?P<service>[^ ]*)(\s*\||\]) thread '.*' panicked at "`
`SERVICES_LOG_LINE_RE = rb"^(\[)?(?P<service>[^ ]*)(\s*\||\]) (?P<msg>.*)$"`

Both share the prefix shape: an optional `[`, a greedy run of non-space
characters captured as `service`, then either whitespace followed by `|` or a
single `]`, then one literal space. The Python engine backtracks over the
optional bracket (taken first) and over the length of the service capture
(longest first); the delimiter alternation is deterministic at any fixed
position because its two branches cannot both apply.
-/

/-- The delimiter group `(\s*\||\])`: first branch skips whitespace greedily
and requires `|` (shorter whitespace prefixes necessarily end at a whitespace
character, so only the maximal run can be followed by `|`); second branch
requires `]` at the original position. -/
def parseDelim (l : Bytes) : Option Bytes :=
  match l.dropWhile isPySpace with
  | '|' :: rest => some rest
  | _ =>
    match l with
    | ']' :: rest => some rest
    | _ => none

/-- One backtracking attempt ladder for the `service` capture: `svcRev` is the
current (reversed) candidate for `[^ ]*`; on failure of the delimiter, the
literal space, or the tail, move the last captured character back to the
input, i.e. try the next shorter capture. -/
def tryService (tail : Bytes → Option α) : Bytes → Bytes → Option (Bytes × α)
  | svcRev, rest =>
    match (parseDelim rest).bind
        (fun r => match r with | ' ' :: r2 => tail r2 | _ => none) with
    | some a => some (svcRev.reverse, a)
    | none =>
      match svcRev with
      | [] => none
      | c :: svcRev2 => tryService tail svcRev2 (c :: rest)

/-- Match `(?P<service>[^ ]*)(\s*\||\]) ` followed by `tail`, starting with
the greedy (maximal) non-space run as service candidate. -/
def matchServiceFrom (tail : Bytes → Option α) (m : Bytes) : Option (Bytes × α) :=
  let run := m.takeWhile (· ≠ ' ')
  tryService tail run.reverse (m.drop run.length)

/-- Match `^(\[)?(?P<service>[^ ]*)(\s*\||\]) ` followed by `tail`: the
optional bracket is greedy, so when the line starts with `[` the bracket is
consumed first and the bracket-less reading is only tried if everything after
fails. -/
def matchLinePrefix (tail : Bytes → Option α) (l : Bytes) : Option (Bytes × α) :=
  match l with
  | '[' :: m =>
    match matchServiceFrom tail m with
    | some a => some a
    | none => matchServiceFrom tail l
  | _ => matchServiceFrom tail l

/-- Tail of `PANIC_IN_SERVICE_START_RE` after the literal space:
`thread '.*' panicked at ` — the literal `thread '`, then a newline-free gap,
then the literal `' panicked at `; trailing text is unconstrained
(`re.match` only anchors the start). -/
def panicTail (r : Bytes) : Option Unit :=
  match litMatch (bs "thread '") r with
  | some r2 =>
    if gapThen (fun t => (litMatch (bs "' panicked at ") t).isSome) r2 then
      some ()
    else none
  | none => none

/-- Tail of `SERVICES_LOG_LINE_RE` after the literal space: `(?P<msg>.*)$` —
the rest of the line is the message, provided it contains no newline (`.`
does not cross `\n` and `$` must be reached; the correlator only ever feeds
single `readline` lines, which contain no interior newline). -/
def servicesTail (r : Bytes) : Option Bytes :=
  if r.all (· ≠ '\n') then some r else none

/-- `PANIC_IN_SERVICE_START_RE.match(line)`, returning the `service` capture. -/
def panicStartMatch (l : Bytes) : Option Bytes :=
  match matchLinePrefix panicTail l with
  | some (svc, _) => some svc
  | none => none

/-- `SERVICES_LOG_LINE_RE.match(line)`, returning the `service` and `msg`
captures. -/
def servicesLogLineMatch (l : Bytes) : Option (Bytes × Bytes) :=
  matchLinePrefix servicesTail l

example : panicStartMatch (bs "svcA | thread 'x' panicked at ") = some (bs "svcA") := by decide
example : panicStartMatch (bs "launchdarkly-materialized-1  | thread 'coordinator' panicked at abc") =
    some (bs "launchdarkly-materialized-1") := by decide
example : panicStartMatch (bs "[pod/environmentd-0/environmentd] thread 'coordinator' panicked at x") =
    some (bs "pod/environmentd-0/environmentd") := by decide
example : panicStartMatch (bs "svcA | out of memory") = none := by decide
example : servicesLogLineMatch (bs "svcA | out of memory") =
    some (bs "svcA", bs "out of memory") := by decide
example : servicesLogLineMatch (bs "[pod/environmentd-0/environmentd] Unknown collection identifier u2082") =
    some (bs "pod/environmentd-0/environmentd", bs "Unknown collection identifier u2082") := by decide
example : servicesLogLineMatch (bs "no delimiter here") = none := by decide

/-!
Model of `IGNORE_RE.search`.

`IGNORE_RE` is a verbose-mode alternation of anchorless patterns, so a search
succeeds exactly when some alternative matches at some start position. Each
alternative is a chain of literal pieces separated by `.*` gaps (plus one
digit-based version pattern), so matching at a position is compiled, piece by
piece, into literal-prefix checks joined by newline-free gaps. Note that in
the source the alternative on the `'external operation ... failed
unrecoverably'` line contains an unescaped `|` after `restart-materialized-1\ *`,
which the `re` module parses as an alternation separator: that line therefore
contributes the two alternatives `restart-materialized-1\ *` (any occurrence
of the bare literal, since the trailing space run may be empty) and
`\ thread\ 'coordinator'\ panicked\ at\ 'external\ operation\ .*\ failed\ unrecoverably.*`.
-/

/-- Literal alternative matched at the current position. -/
def litHere (w : String) (l : Bytes) : Bool := (litMatch (bs w) l).isSome

/-- A literal piece followed by a `.*` gap and a continuation. -/
def litGap (w : String) (k : Bytes → Bool) (l : Bytes) : Bool :=
  match litMatch (bs w) l with
  | some r => gapThen k r
  | none => false

/-- A leading alternation of literal pieces (regex character class or group of
literal branches), each followed by a `.*` gap and a continuation. -/
def altLitGap (ws : List String) (k : Bytes → Bool) (l : Bytes) : Bool :=
  ws.any (fun w => litGap w k l)

/-- Regex `\d+`: a nonempty digit run (greedy; deterministic here because every
following piece starts with a non-digit). -/
def digitsMatch (l : Bytes) : Option Bytes :=
  let ds := l.takeWhile (fun c => decide ('0' ≤ c) && decide (c ≤ '9'))
  if ds.isEmpty then none else some (l.drop ds.length)

/-- Regex `\d+\.\d+\.\d+`. -/
def semverMatch (l : Bytes) : Option Bytes :=
  (digitsMatch l).bind fun r1 =>
    (litMatch (bs ".") r1).bind fun r2 =>
      (digitsMatch r2).bind fun r3 =>
        (litMatch (bs ".") r3).bind fun r4 => digitsMatch r4

/-- Regex `(-dev)?` before a piece starting with `,`: consuming `-dev` when
present is equivalent to the backtracking semantics because `,` and `-` differ. -/
def optDev (l : Bytes) : Bytes :=
  match litMatch (bs "-dev") l with
  | some r => r
  | none => l

/-- Tail of the `skip-version-upgrade` alternative:
`incompatible\ persist\ version\ \d+\.\d+\.\d+(-dev)?,\ current:\ \d+\.\d+\.\d+(-dev)?,\ make\ sure\ ...`. -/
def incompatiblePersistTail (l : Bytes) : Bool :=
  match litMatch (bs "incompatible persist version ") l with
  | some r1 =>
    match semverMatch r1 with
    | some r2 =>
      match litMatch (bs ", current: ") (optDev r2) with
      | some r3 =>
        match semverMatch r3 with
        | some r4 =>
          litHere ", make sure to upgrade the catalog one version at a time" (optDev r4)
        | none => false
      | none => false
    | none => false
  | none => false

/-- One alternative of `IGNORE_RE` matched at the current position, in source
order. -/
def ignoreMatchAt (l : Bytes) : Bool :=
  litHere "restart-materialized-1  | thread 'coordinator' panicked at 'can't persist timestamp" l
  || litHere "restart-materialized-1" l
  || litGap " thread 'coordinator' panicked at 'external operation "
       (litHere " failed unrecoverably") l
  || altLitGap ["cluster-clusterd1-1 ", "cluster-clusterd2-1 "]
       (litHere " halting process: new timely configuration does not match existing timely configuration") l
  || litHere "forced panic" l
  || litHere "forced optimizer panic" l
  || litHere "timely communication error:" l
  || litHere "aborting because propagate_crashes is enabled" l
  || litGap "restart-materialized-1 " (litHere "relation \\\"fence\\\" does not exist") l
  || litGap "restart-materialized-1 " (litHere "relation \"consensus\" does not exist") l
  || litHere "internal error: unexpected panic during query optimization" l
  || litHere "larger sizes prevent running out of memory" l
  || altLitGap ["platform-checks-materialized-", "legacy-upgrade-materialized-",
       "upgrade-matrix-materialized-", "feature-benchmark-materialized-"]
       (litGap "|" (litHere "cannot load unknown system parameter from catalog storage")) l
  || litGap "txn-wal-fencing-mz_first-" (litGap "|" (litHere "unexpected fence epoch")) l
  || litGap "txn-wal-fencing-mz_first-" (litGap "|" (litHere "fenced by new catalog upper")) l
  || litGap "txn-wal-fencing-mz_first-" (litGap "|" (litHere "fenced by new catalog epoch")) l
  || litGap "platform-checks-mz_txn_tables" (litGap "|" (litHere "unexpected fence epoch")) l
  || litGap "platform-checks-mz_txn_tables" (litGap "|" (litHere "fenced by new catalog upper")) l
  || litGap "platform-checks-mz_txn_tables" (litGap "|" (litHere "fenced by new catalog epoch")) l
  || litGap "platform-checks-clusterd" (litGap "|" (litHere "received persist state from the future")) l
  || litHere "cannot load unknown system parameter from catalog storage" l
  || litHere "internal error: no AWS external ID prefix configured" l
  || litGap "skip-version-upgrade-materialized" (litGap "|" incompatiblePersistTail) l

/-- `IGNORE_RE.search(s)`: some alternative matches at some position. -/
def ignoreReSearch (s : Bytes) : Bool := anySuffix ignoreMatchAt s

example : ignoreReSearch (bs "svcA | thread 'p' panicked at 'forced panic', src/lib.rs") = true := by decide
example : ignoreReSearch (bs "svcA | out of memory") = false := by decide
example : ignoreReSearch (bs "blah restart-materialized-1 blah") = true := by decide
example : ignoreReSearch (bs "x | cluster-clusterd2-1 z | aaa halting process: new timely configuration does not match existing timely configuration") = true := by decide
example : ignoreReSearch (bs "skip-version-upgrade-materialized-7 | x incompatible persist version 1.22.0-dev, current: 1.23.4, make sure to upgrade the catalog one version at a time") = true := by decide
example : ignoreReSearch (bs "skip-version-upgrade-materialized-7 | x incompatible persist version 1.22., current: 1.23.4, make sure to upgrade the catalog one version at a time") = false := by decide
example : ignoreReSearch (bs "svcA | note") = false := by decide

/-!
The panic correlator `_collect_service_panics_in_logs`.

The Python loop reads lines, strips trailing newlines, and keeps a dict
`open_panics` from service label to the pending panic-start line. A dict is
modelled as an insertion-ordered association list: assignment of an absent key
appends, `del` removes the (unique) entry. The two `assert` statements become
`Except.error` values carrying the interpolated data (the service and the
offending line, respectively the unresolved pending entries). The collected
records are `ErrorLog(match, file)` values.
-/

/-- `ErrorLog` dataclass: a matched span of bytes plus the source file name. -/
structure ErrorLog where
  matchText : Bytes
  file : String
deriving DecidableEq, Repr

/-- Dict lookup `open_panics.get(service)` / `service in open_panics`. -/
def lookupPanic : List (Bytes × Bytes) → Bytes → Option Bytes
  | [], _ => none
  | (s, l) :: rest, svc => if s = svc then some l else lookupPanic rest svc

/-- Dict deletion `del open_panics[service]` (keys are unique, so removing the
first matching entry is the dict behaviour). -/
def erasePanic : List (Bytes × Bytes) → Bytes → List (Bytes × Bytes)
  | [], _ => []
  | (s, l) :: rest, svc => if s = svc then rest else (s, l) :: erasePanic rest svc

/-- Correlator state: the pending `open_panics` dict and the records collected
so far. -/
structure PanicState where
  openPanics : List (Bytes × Bytes)
  collected : List ErrorLog
deriving DecidableEq, Repr

/-- The two fatal `assert` conditions of the correlator, carrying the data the
assertion messages interpolate: `interleavedPanic` names the service and the
offending line (`"Two panics of same service {service} interleaving: {line}"`),
`unfinishedPanics` carries the unresolved pending entries
(`"Panic log never finished: {open_panics}"`). -/
inductive PanicError where
  | interleavedPanic (service : Bytes) (line : Bytes)
  | unfinishedPanics (openPanics : List (Bytes × Bytes))
deriving DecidableEq, Repr

/-- One iteration of the correlator loop on a raw line. -/
def panicStep (ignore : Bytes → Bool) (file : String) (st : PanicState)
    (rawLine : Bytes) : Except PanicError PanicState :=
  let line := rstripNl rawLine
  match panicStartMatch line with
  | some svc =>
    match lookupPanic st.openPanics svc with
    | some _ => .error (.interleavedPanic svc line)
    | none => .ok { st with openPanics := st.openPanics ++ [(svc, line)] }
  | none =>
    if st.openPanics.isEmpty then .ok st
    else
      match servicesLogLineMatch line with
      | some (svc, msg) =>
        match lookupPanic st.openPanics svc with
        | some panicStart =>
          let rest := erasePanic st.openPanics svc
          if ignore line then .ok { openPanics := rest, collected := st.collected }
          else .ok { openPanics := rest,
                     collected := st.collected ++ [⟨panicStart ++ ' ' :: msg, file⟩] }
        | none => .ok st
      | none => .ok st

/-- The correlator loop over the remaining lines. -/
def panicLoop (ignore : Bytes → Bool) (file : String) (st : PanicState) :
    List Bytes → Except PanicError PanicState
  | [] => .ok st
  | l :: ls =>
    match panicStep ignore file st l with
    | .ok st2 => panicLoop ignore file st2 ls
    | .error e => .error e

/-- `_collect_service_panics_in_logs`: run the loop from the empty state over
the file's lines (as yielded by `iter(data.readline, b"")`), then apply the
end-of-stream `assert not open_panics`. -/
def collectServicePanics (ignore : Bytes → Bool) (lines : List Bytes)
    (file : String) : Except PanicError (List ErrorLog) :=
  match panicLoop ignore file ⟨[], []⟩ lines with
  | .error e => .error e
  | .ok st =>
    if st.openPanics.isEmpty then .ok st.collected
    else .error (.unfinishedPanics st.openPanics)

/-!
The scanner `_collect_errors_in_logs`.

`ERROR_RE.finditer(data)` yields the fatal-signature match spans in buffer
order; that regex iteration is abstracted as the input list `spans` (in
order of first occurrence). The loop body is translated literally: a span is
dropped when `IGNORE_RE` matches inside it, or when it contains both
`environmentd` and `segfault at` while the run is a coverage build
(`ui.env_is_truthy("CI_COVERAGE_ENABLED")`, environment context passed in as
`coverageEnabled`).
-/

/-- Python `needle in haystack` on bytes: substring test. -/
def bytesContains (hay needle : Bytes) : Bool :=
  anySuffix (fun t => (litMatch needle t).isSome) hay

/-- `_collect_errors_in_logs`, with the `ERROR_RE` match spans and the
`IGNORE_RE.search` oracle as parameters. -/
def collectErrorsInLogs (ignore : Bytes → Bool) (coverageEnabled : Bool)
    (spans : List Bytes) (file : String) : List ErrorLog :=
  match spans with
  | [] => []
  | m :: rest =>
    if ignore m then collectErrorsInLogs ignore coverageEnabled rest file
    else if bytesContains m (bs "environmentd") && bytesContains m (bs "segfault at")
        && coverageEnabled then
      collectErrorsInLogs ignore coverageEnabled rest file
    else ⟨m, file⟩ :: collectErrorsInLogs ignore coverageEnabled rest file

example : collectServicePanics ignoreReSearch
    [bs "svcA | thread 'x' panicked at \n", bs "svcA | out of memory"] "services.log" =
    .ok [⟨bs "svcA | thread 'x' panicked at  out of memory", "services.log"⟩] := by rfl
example : collectServicePanics ignoreReSearch
    [bs "svcA | thread 'x' panicked at \n"] "services.log" =
    .error (.unfinishedPanics [(bs "svcA", bs "svcA | thread 'x' panicked at ")]) := by rfl

/-!
The issue classifier `handle_error` (a closure inside `annotate_logged_errors`)
and the aggregator `group_identical_errors`.

External collaborators are abstracted at their interface boundary:
* a `KnownIssue` registry entry carries its compiled pattern as the search
  oracle `search : String → Bool` (`issue.regex.search`), its lifecycle
  state, optional `apply_to` scope, number, title and URL;
* `for_github_re` (the text transform from `materialize.github`, outside this
  repository) is the `Ctx.forGithub` parameter;
* the Buildkite environment values `BUILDKITE_STEP_KEY` / `BUILDKITE_LABEL`
  are the `Ctx` fields.

The `ObservedError` dataclass family is flattened into one structure: the
subclass is recoverable from `errorType` / `internalErrorType` / `issueRef`.
The base class `ObservedBaseError` (in `materialize.observed_error`, outside
this repository) contributes `internal_error_type` and `occurrences`.
Modelled from the spec: structural equality of observed errors, as used by
the grouping dict, never includes the occurrence count (`§3`: "occurrence
count is never part of the equality key"); all other fields are compared, as
generated for the dataclasses declared in this file's source.
-/

/-- Python `str.lower()` (the program only compares ASCII step keys and
labels). -/
def pyLowerChar (c : Char) : Char :=
  if 65 ≤ c.toNat ∧ c.toNat ≤ 90 then Char.ofNat (c.toNat + 32) else c

/-- Python `str.lower()` on a whole string. -/
def pyLower (s : String) : String := ⟨s.data.map pyLowerChar⟩

/-- Run context read from the environment by `annotate_logged_errors`, plus
the externally supplied text transform `for_github_re`. -/
structure Ctx where
  stepKey : String
  buildkiteLabel : String
  forGithub : String → String

/-- Lifecycle state of a registry issue (`issue.info["state"]`). -/
inductive IssueState where
  | isOpen
  | isClosed
deriving DecidableEq

/-- A registry entry from `get_known_issues_from_github`, with its compiled
pattern abstracted as the search oracle `search`. -/
structure KnownIssue where
  search : String → Bool
  state : IssueState
  applyTo : Option String
  number : Nat
  title : String
  htmlUrl : String

/-- Issue reference data of `ObservedErrorWithIssue`. -/
structure IssueRef where
  number : Nat
  title : String
  url : String
  isClosed : Bool
deriving DecidableEq, Repr

/-- Flattened `ObservedError` record. -/
structure ObservedError where
  errorType : String
  internalErrorType : String
  errorMessage : String
  errorDetails : Option String
  location : String
  locationUrl : Option String
  issueRef : Option IssueRef
  maxErrorLength : Nat
  maxDetailsLength : Nat
  occurrences : Nat
deriving DecidableEq, Repr

/-- An `ObservedErrorWithIssue` as built by `handle_error`. -/
def mkIssueError (errorMessage : String) (errorDetails : Option String)
    (errorType internalErrorType : String) (issue : KnownIssue)
    (issueIsClosed : Bool) (location : String) (locationUrl : Option String) :
    ObservedError :=
  { errorType := errorType
    internalErrorType := internalErrorType
    errorMessage := errorMessage
    errorDetails := errorDetails
    location := location
    locationUrl := locationUrl
    issueRef := some ⟨issue.number, issue.title, issue.htmlUrl, issueIsClosed⟩
    maxErrorLength := 10000
    maxDetailsLength := 10000
    occurrences := 1 }

/-- An `ObservedErrorWithLocation` (`"Unknown error"`) as built by
`handle_error`. -/
def mkUnknownError (errorMessage : String) (errorDetails : Option String)
    (location : String) (locationUrl : Option String) : ObservedError :=
  { errorType := "Unknown error"
    internalErrorType := "UNKNOWN ERROR"
    errorMessage := errorMessage
    errorDetails := errorDetails
    location := location
    locationUrl := locationUrl
    issueRef := none
    maxErrorLength := 10000
    maxDetailsLength := 10000
    occurrences := 1 }

/-- Classifier state threaded through `handle_error` calls: the
`already_reported_issue_numbers` set and the two output lists. -/
structure HEState where
  alreadyReported : List Nat
  knownErrors : List ObservedError
  unknownErrors : List ObservedError
deriving DecidableEq, Repr

/-- Initial classifier state. -/
def initHEState : HEState := ⟨[], [], []⟩

/-- The classifier's search string: `error_message`, with `"\n" + error_details`
appended when details are present. -/
def searchStringOf (errorMessage : String) (errorDetails : Option String) : String :=
  errorMessage ++ (match errorDetails with | some d => "\n" ++ d | none => "")

/-- The `continue` guard on a scoped issue:
`issue.apply_to and issue.apply_to not in (step_key.lower(), buildkite_label.lower())`
(an empty `apply_to` is falsy, and the stored value is compared against the
lowercased step key and label). -/
def applyToSkip (ctx : Ctx) (issue : KnownIssue) : Bool :=
  match issue.applyTo with
  | some a =>
    decide (a ≠ "") &&
      !(decide (a = pyLower ctx.stepKey) || decide (a = pyLower ctx.buildkiteLabel))
  | none => false

/-- The per-issue acceptance test of one classification pass: the regex search
succeeds on the transformed text, the issue is in the wanted lifecycle state,
and the scope guard does not skip it. -/
def issueHit (ctx : Ctx) (searchStr : String) (wantClosed : Bool)
    (issue : KnownIssue) : Bool :=
  issue.search (ctx.forGithub searchStr)
  && (if wantClosed then decide (issue.state = .isClosed)
      else decide (issue.state = .isOpen))
  && !applyToSkip ctx issue

/-- `handle_error`: pass 1 scans the registry for the first matching open
issue (and breaks whether or not the issue number was already reported);
otherwise pass 2 scans for the first matching closed issue (a potential
regression, appended to the unknown-errors list); otherwise an
`ObservedErrorWithLocation` unknown error is appended. -/
def handleError (ctx : Ctx) (knownIssues : List KnownIssue) (st : HEState)
    (errorMessage : String) (errorDetails : Option String)
    (location : String) (locationUrl : Option String) : HEState :=
  let searchStr := searchStringOf errorMessage errorDetails
  match knownIssues.find? (issueHit ctx searchStr false) with
  | some issue =>
    if issue.number ∈ st.alreadyReported then st
    else
      { st with
        knownErrors := st.knownErrors ++
          [mkIssueError errorMessage errorDetails "Known issue" "KNOWN_ISSUE"
            issue false location locationUrl]
        alreadyReported := st.alreadyReported ++ [issue.number] }
  | none =>
    match knownIssues.find? (issueHit ctx searchStr true) with
    | some issue =>
      if issue.number ∈ st.alreadyReported then st
      else
        { st with
          unknownErrors := st.unknownErrors ++
            [mkIssueError errorMessage errorDetails "Potential regression"
              "POTENTIAL_REGRESSION" issue true location locationUrl]
          alreadyReported := st.alreadyReported ++ [issue.number] }
    | none =>
      { st with
        unknownErrors := st.unknownErrors ++
          [mkUnknownError errorMessage errorDetails location locationUrl] }

/-- One raw error handed to `handle_error` by the dispatch loop of
`annotate_logged_errors`. -/
structure ErrInput where
  errorMessage : String
  errorDetails : Option String
  location : String
  locationUrl : Option String

/-- The classification run: `handle_error` folded over the raw errors. -/
def runHandleErrors (ctx : Ctx) (knownIssues : List KnownIssue) (st : HEState)
    (errs : List ErrInput) : HEState :=
  errs.foldl
    (fun s e => handleError ctx knownIssues s e.errorMessage e.errorDetails
      e.location e.locationUrl) st

/-- Whether a record references issue number `n`. -/
def refsTo (r : ObservedError) (n : Nat) : Bool :=
  match r.issueRef with
  | some ref => decide (ref.number = n)
  | none => false

/-- How many records of the classifier state reference issue number `n`. -/
def countRefs (st : HEState) (n : Nat) : Nat :=
  (st.knownErrors ++ st.unknownErrors).countP (refsTo · n)

/-- Occurrence-blind record equality: the dict equality of observed errors
(all dataclass fields except the occurrence count, see the section comment). -/
def obsKeyEq (r s : ObservedError) : Bool :=
  decide ({ r with occurrences := 1 } = { s with occurrences := 1 })

/-- One `errors_with_counts[error] = 1 + errors_with_counts.get(error, 0)`
step: increment the entry equal to `e` (keeping the first-inserted key
object), or append a fresh entry. -/
def insertErrCount : List (ObservedError × Nat) → ObservedError →
    List (ObservedError × Nat)
  | [], e => [(e, 1)]
  | (k, c) :: rest, e =>
    if obsKeyEq k e then (k, c + 1) :: rest
    else (k, c) :: insertErrCount rest e

/-- `group_identical_errors`: count identical records in an insertion-ordered
dict, then emit each surviving record with its occurrence count set. -/
def groupIdenticalErrors (errors : List ObservedError) : List ObservedError :=
  (errors.foldl insertErrCount []).map (fun kc => { kc.1 with occurrences := kc.2 })

/-- The failure flag computed by `annotate_errors`:
`len(unknown_errors) > 0 or not has_successful_buildkite_status()` (evaluated
after grouping). -/
def annotateErrorsIsFailure (unknownErrors : List ObservedError)
    (hasSuccessfulStatus : Bool) : Bool :=
  decide (0 < (groupIdenticalErrors unknownErrors).length) || !hasSuccessfulStatus

/-- The value `annotate_logged_errors` returns (the process exit code):
`len(unknown_errors)` of the classifier run. -/
def annotateLoggedErrorsExitCode (ctx : Ctx) (knownIssues : List KnownIssue)
    (errs : List ErrInput) : Nat :=
  (runHandleErrors ctx knownIssues initHEState errs).unknownErrors.length

/-- The grouping key named by the specification: kind, message, details,
location. -/
def key4 (r : ObservedError) : String × String × Option String × String :=
  (r.errorType, r.errorMessage, r.errorDetails, r.location)

/-- First-seen deduplication by `key4` (helper for the spec-side aggregation
model). -/
def dedupByKey4Aux (seen : List (String × String × Option String × String)) :
    List ObservedError → List ObservedError
  | [] => []
  | r :: rest =>
    if key4 r ∈ seen then dedupByKey4Aux seen rest
    else r :: dedupByKey4Aux (seen ++ [key4 r]) rest

/-- Modelled from the spec: the aggregation contract in the claim's words —
collapse records that agree on kind, message, details and location into the
first-seen representative, set its occurrence count to the group size, and
keep distinct groups in first-seen order. -/
def groupBySpecModel (errors : List ObservedError) : List ObservedError :=
  (dedupByKey4Aux [] errors).map
    (fun r => { r with occurrences := errors.countP (fun s => decide (key4 s = key4 r)) })

/-!
Helper lemmas about the correlator loop and its pending dict.
-/

theorem panicLoop_append (ignore : Bytes → Bool) (file : String)
    (st : PanicState) (xs ys : List Bytes) :
    panicLoop ignore file st (xs ++ ys) =
      match panicLoop ignore file st xs with
      | .ok st2 => panicLoop ignore file st2 ys
      | .error e => .error e := by
  induction xs generalizing st with
  | nil => simp [panicLoop]
  | cons x xs ih =>
    simp only [List.cons_append, panicLoop]
    cases panicStep ignore file st x with
    | ok st2 => exact ih st2
    | error e => rfl

theorem lookupPanic_append_self (p : List (Bytes × Bytes)) (svc x : Bytes)
    (h : lookupPanic p svc = none) :
    lookupPanic (p ++ [(svc, x)]) svc = some x := by
  induction p with
  | nil => simp [lookupPanic]
  | cons q qs ih =>
    obtain ⟨s, l⟩ := q
    by_cases hs : s = svc
    · simp [lookupPanic, hs] at h
    · simp only [List.cons_append, lookupPanic, if_neg hs] at h ⊢
      exact ih h

theorem erasePanic_append_self (p : List (Bytes × Bytes)) (svc x : Bytes)
    (h : lookupPanic p svc = none) :
    erasePanic (p ++ [(svc, x)]) svc = p := by
  induction p with
  | nil => simp [erasePanic]
  | cons q qs ih =>
    obtain ⟨s, l⟩ := q
    by_cases hs : s = svc
    · simp [lookupPanic, hs] at h
    · simp only [lookupPanic, if_neg hs] at h
      simp only [List.cons_append, erasePanic, if_neg hs]
      exact congrArg (List.cons (s, l)) (ih h)

theorem panicLoop_inert (ignore : Bytes → Bool) (file : String) (st : PanicState)
    (mid : List Bytes)
    (h : ∀ l ∈ mid, panicStartMatch (rstripNl l) = none ∧
        ∀ s m, servicesLogLineMatch (rstripNl l) = some (s, m) →
          lookupPanic st.openPanics s = none) :
    panicLoop ignore file st mid = .ok st := by
  induction mid with
  | nil => rfl
  | cons l ls ih =>
    have hl := h l (List.mem_cons_self l ls)
    have hstep : panicStep ignore file st l = .ok st := by
      simp only [panicStep]
      rw [hl.1]
      by_cases he : st.openPanics.isEmpty
      · simp [he]
      · simp only [Bool.not_eq_true] at he
        cases hm : servicesLogLineMatch (rstripNl l) with
        | none => simp [he, hm]
        | some p =>
          obtain ⟨s, m⟩ := p
          simp [he, hm, hl.2 s m hm]
    simp only [panicLoop, hstep]
    exact ih (fun x hx => h x (List.mem_cons_of_mem l hx))

/-- C5: when a panic-start line for a service arrives while that service
already has a pending (unresolved) panic entry, the correlator aborts the
whole file's processing with a diagnostic carrying the service and the
offending line; no record list is returned (so neither panic yields a record)
and the remaining lines — universally quantified here — are never scanned. -/
theorem interleaved_panic_aborts (ignore : Bytes → Bool) (file : String)
    (pre : List Bytes) (line : Bytes) (rest : List Bytes)
    (svc prev : Bytes) (st : PanicState)
    (hpre : panicLoop ignore file ⟨[], []⟩ pre = .ok st)
    (hline : panicStartMatch (rstripNl line) = some svc)
    (hpend : lookupPanic st.openPanics svc = some prev) :
    collectServicePanics ignore (pre ++ line :: rest) file =
      .error (.interleavedPanic svc (rstripNl line)) := by
  have hstep : panicStep ignore file st line =
      .error (.interleavedPanic svc (rstripNl line)) := by
    simp only [panicStep]
    rw [hline]
    simp only [hpend]
  unfold collectServicePanics
  rw [panicLoop_append, hpre]
  simp [panicLoop, hstep]

/-- Witness for C5 at a concrete input: two panic-start lines of service
`svcA` with no resolution in between. -/
theorem interleaved_panic_aborts_witness :
    collectServicePanics ignoreReSearch
      [bs "svcA | thread 'a' panicked at x\n", bs "svcA | thread 'b' panicked at y"]
      "services.log"
      = .error (.interleavedPanic (bs "svcA") (bs "svcA | thread 'b' panicked at y")) :=
  interleaved_panic_aborts ignoreReSearch "services.log"
    [bs "svcA | thread 'a' panicked at x\n"] (bs "svcA | thread 'b' panicked at y") []
    (bs "svcA") (bs "svcA | thread 'a' panicked at x")
    ⟨[(bs "svcA", bs "svcA | thread 'a' panicked at x")], []⟩
    (by rfl) (by rfl) (by rfl)

/-- C6: when the correlator loop reaches end of stream with a nonempty pending
map, `_collect_service_panics_in_logs` aborts with a diagnostic carrying the
unresolved pending entries (hence the unresolved service names), and no
record list is returned for the file. -/
theorem unterminated_panic_aborts (ignore : Bytes → Bool) (file : String)
    (lines : List Bytes) (st : PanicState)
    (hloop : panicLoop ignore file ⟨[], []⟩ lines = .ok st)
    (hpend : st.openPanics ≠ []) :
    collectServicePanics ignore lines file = .error (.unfinishedPanics st.openPanics) := by
  unfold collectServicePanics
  rw [hloop]
  have : st.openPanics.isEmpty = false := by
    cases h : st.openPanics with
    | nil => exact absurd h hpend
    | cons a as => rfl
  simp [this]

/-- Witness for C6 at a concrete input: a single unterminated panic-start
line. -/
theorem unterminated_panic_aborts_witness :
    collectServicePanics ignoreReSearch [bs "svcB | thread 'x' panicked at "] "services.log"
      = .error (.unfinishedPanics [(bs "svcB", bs "svcB | thread 'x' panicked at ")]) :=
  unterminated_panic_aborts ignoreReSearch "services.log"
    [bs "svcB | thread 'x' panicked at "]
    ⟨[(bs "svcB", bs "svcB | thread 'x' panicked at ")], []⟩
    (by rfl) (by decide)

/-- C4 (amended): a panic-start line for a fresh service `svc`, followed by
inert lines and then by the first labeled line for `svc` (not itself a
panic-start line), makes the correlator emit exactly one combined record —
the stored (newline-stripped) start line, one space, and the resolving line's
message — and clears the pending entry for `svc`, provided the resolving line
does not match an ignore pattern (the ignore-suppressed case is the
correction to the original claim, see the counterexample). -/
theorem panic_episode_emits_record (ignore : Bytes → Bool) (file : String)
    (pending : List (Bytes × Bytes)) (out : List ErrorLog)
    (start : Bytes) (mid : List Bytes) (resolve : Bytes) (svc msg : Bytes)
    (hstart : panicStartMatch (rstripNl start) = some svc)
    (hfresh : lookupPanic pending svc = none)
    (hmid : ∀ l ∈ mid, panicStartMatch (rstripNl l) = none ∧
        ∀ s m, servicesLogLineMatch (rstripNl l) = some (s, m) →
          lookupPanic (pending ++ [(svc, rstripNl start)]) s = none)
    (hres1 : panicStartMatch (rstripNl resolve) = none)
    (hres2 : servicesLogLineMatch (rstripNl resolve) = some (svc, msg))
    (hign : ignore (rstripNl resolve) = false) :
    panicLoop ignore file ⟨pending, out⟩ (start :: mid ++ [resolve]) =
      .ok ⟨pending, out ++ [⟨rstripNl start ++ ' ' :: msg, file⟩]⟩ := by
  have hstep1 : panicStep ignore file ⟨pending, out⟩ start =
      .ok ⟨pending ++ [(svc, rstripNl start)], out⟩ := by
    simp only [panicStep]
    rw [hstart]
    simp only [hfresh]
  have hmidloop : panicLoop ignore file ⟨pending ++ [(svc, rstripNl start)], out⟩ mid =
      .ok ⟨pending ++ [(svc, rstripNl start)], out⟩ :=
    panicLoop_inert ignore file _ mid hmid
  have hstepR : panicStep ignore file ⟨pending ++ [(svc, rstripNl start)], out⟩ resolve =
      .ok ⟨pending, out ++ [⟨rstripNl start ++ ' ' :: msg, file⟩]⟩ := by
    have hie : (pending ++ [(svc, rstripNl start)]).isEmpty = false := by
      cases pending <;> rfl
    simp only [panicStep]
    rw [hres1, hres2]
    simp [hie, hign, lookupPanic_append_self pending svc (rstripNl start) hfresh,
      erasePanic_append_self pending svc (rstripNl start) hfresh]
  calc panicLoop ignore file ⟨pending, out⟩ (start :: (mid ++ [resolve]))
      = panicLoop ignore file ⟨pending ++ [(svc, rstripNl start)], out⟩ (mid ++ [resolve]) := by
        simp only [panicLoop, hstep1]
    _ = panicLoop ignore file ⟨pending ++ [(svc, rstripNl start)], out⟩ [resolve] := by
        rw [panicLoop_append, hmidloop]
    _ = .ok ⟨pending, out ++ [⟨rstripNl start ++ ' ' :: msg, file⟩]⟩ := by
        simp only [panicLoop, hstepR]

/-- Witness for C4 at the spec's end-to-end scenario 3: `svcA | thread 'x'
panicked at ` resolved by `svcA | out of memory` yields the single combined
record `svcA | thread 'x' panicked at  out of memory`, with the real
`IGNORE_RE` model as the ignore oracle. -/
theorem panic_episode_emits_record_witness :
    panicLoop ignoreReSearch "services.log" ⟨[], []⟩
      [bs "svcA | thread 'x' panicked at \n", bs "svcA | out of memory"] =
      .ok ⟨[], [⟨bs "svcA | thread 'x' panicked at  out of memory", "services.log"⟩]⟩ :=
  panic_episode_emits_record ignoreReSearch "services.log" [] []
    (bs "svcA | thread 'x' panicked at \n") [] (bs "svcA | out of memory")
    (bs "svcA") (bs "out of memory")
    (by decide) (by rfl) (by simp) (by decide) (by decide) (by decide)

/-- C4 counterexample: all premises of the original claim hold — a fresh
panic-start line for `svcA` followed before end of stream by a labeled
`svcA` line that is not a panic-start line — yet the correlator emits no
record at all (`.ok []`), because the resolving line `svcA | forced panic`
matches an ignore pattern; the original claim promises exactly one combined
record on every such stream. -/
theorem panic_episode_ignored_counterexample :
    panicStartMatch (rstripNl (bs "svcA | thread 'x' panicked at \n")) = some (bs "svcA")
    ∧ panicStartMatch (bs "svcA | forced panic") = none
    ∧ servicesLogLineMatch (bs "svcA | forced panic") = some (bs "svcA", bs "forced panic")
    ∧ collectServicePanics ignoreReSearch
        [bs "svcA | thread 'x' panicked at \n", bs "svcA | forced panic"] "services.log"
      = .ok [] :=
  ⟨by decide, by decide, by decide, by rfl⟩

/-- C3: the code evaluated at a failing input. The panic-start line of `svcA`
contains the ignored text `forced panic`, so the combined record matches an
ignore pattern and — per the claim — should be suppressed; the code instead
checks `IGNORE_RE` only against the resolving line (`match.group(0)`), which
matches no ignore pattern, and therefore emits the record. The pending entry
is cleared either way (the run ends in `.ok`, which requires an empty pending
map). -/
theorem panic_ignore_checked_on_line_only :
    collectServicePanics ignoreReSearch
      [bs "svcA | thread 'p' panicked at 'forced panic', src/lib.rs\n", bs "svcA | note"]
      "services.log"
      = .ok [⟨bs "svcA | thread 'p' panicked at 'forced panic', src/lib.rs note", "services.log"⟩]
    ∧ ignoreReSearch (bs "svcA | thread 'p' panicked at 'forced panic', src/lib.rs note") = true
    ∧ ignoreReSearch (bs "svcA | note") = false :=
  ⟨by rfl, by decide, by decide⟩

/-- C7: every record the scanner reports fails the ignore oracle on its own
matched span, and the reported spans form a sublist of the `ERROR_RE` match
spans (which `finditer` yields in order of first occurrence), so reported
matches keep that order. -/
theorem collectErrors_sound_and_ordered (ignore : Bytes → Bool) (cov : Bool)
    (spans : List Bytes) (file : String) :
    (∀ e ∈ collectErrorsInLogs ignore cov spans file, ignore e.matchText = false)
    ∧ List.Sublist ((collectErrorsInLogs ignore cov spans file).map ErrorLog.matchText) spans := by
  induction spans with
  | nil =>
    exact ⟨fun e he => absurd he (by simp [collectErrorsInLogs]),
      by simp [collectErrorsInLogs]⟩
  | cons m rest ih =>
    by_cases hig : ignore m = true
    · have heq : collectErrorsInLogs ignore cov (m :: rest) file =
          collectErrorsInLogs ignore cov rest file := by
        simp [collectErrorsInLogs, hig]
      refine ⟨fun e he => ih.1 e (heq ▸ he), ?_⟩
      rw [heq]
      exact ih.2.cons m
    · have hig2 : ignore m = false := by
        cases h : ignore m with
        | true => exact absurd h hig
        | false => rfl
      by_cases hcov : (bytesContains m (bs "environmentd")
          && bytesContains m (bs "segfault at") && cov) = true
      · have heq : collectErrorsInLogs ignore cov (m :: rest) file =
            collectErrorsInLogs ignore cov rest file := by
          simp [collectErrorsInLogs, hig2, hcov]
        refine ⟨fun e he => ih.1 e (heq ▸ he), ?_⟩
        rw [heq]
        exact ih.2.cons m
      · have heq : collectErrorsInLogs ignore cov (m :: rest) file =
            ⟨m, file⟩ :: collectErrorsInLogs ignore cov rest file := by
          simp only [collectErrorsInLogs, hig2]
          simp [hcov]
        constructor
        · intro e he
          rw [heq] at he
          rcases List.mem_cons.mp he with h1 | h2
          · rw [h1]
            exact hig2
          · exact ih.1 e h2
        · rw [heq]
          simpa using ih.2.cons₂ m
      
/-- Witness for C7 at a concrete input: a surviving span and an ignored span
under the real `IGNORE_RE` model. -/
theorem collectErrors_sound_and_ordered_witness :
    ignoreReSearch (bs "svcA | fatal runtime error: stack overflow") = false
    ∧ List.Sublist ((collectErrorsInLogs ignoreReSearch false
        [bs "svcA | fatal runtime error: stack overflow", bs "a forced panic b"] "f.log").map
        ErrorLog.matchText)
      [bs "svcA | fatal runtime error: stack overflow", bs "a forced panic b"] :=
  ⟨(collectErrors_sound_and_ordered ignoreReSearch false
      [bs "svcA | fatal runtime error: stack overflow", bs "a forced panic b"] "f.log").1
      ⟨bs "svcA | fatal runtime error: stack overflow", "f.log"⟩ (by decide),
    (collectErrors_sound_and_ordered ignoreReSearch false
      [bs "svcA | fatal runtime error: stack overflow", bs "a forced panic b"] "f.log").2⟩

/-- C1: when the registry contains at least one open issue accepted by pass 1
(pattern matches the transformed text, state open, scope guard passed), the
classifier takes the first such issue: it either appends exactly its
known-issue record (with `issue_is_closed = false`) or — if that issue number
was already reported — leaves the state unchanged; in both cases the
unknown-errors list is untouched, so no closed-issue (regression) record is
ever produced, regardless of any closed issues earlier in registry order. -/
theorem handleError_open_precedence (ctx : Ctx) (knownIssues : List KnownIssue)
    (st : HEState) (m : String) (d : Option String) (loc : String)
    (url : Option String) (issue : KnownIssue)
    (h : knownIssues.find? (issueHit ctx (searchStringOf m d) false) = some issue) :
    handleError ctx knownIssues st m d loc url =
      (if issue.number ∈ st.alreadyReported then st
       else
        { st with
          knownErrors := st.knownErrors ++
            [mkIssueError m d "Known issue" "KNOWN_ISSUE" issue false loc url]
          alreadyReported := st.alreadyReported ++ [issue.number] })
    ∧ (handleError ctx knownIssues st m d loc url).unknownErrors = st.unknownErrors := by
  have he : handleError ctx knownIssues st m d loc url =
      (if issue.number ∈ st.alreadyReported then st
       else
        { st with
          knownErrors := st.knownErrors ++
            [mkIssueError m d "Known issue" "KNOWN_ISSUE" issue false loc url]
          alreadyReported := st.alreadyReported ++ [issue.number] }) := by
    simp only [handleError]
    rw [h]
  refine ⟨he, ?_⟩
  rw [he]
  by_cases hrep : issue.number ∈ st.alreadyReported
  · rw [if_pos hrep]
  · rw [if_neg hrep]

/-- Witness fixture: a closed registry issue whose pattern matches every
text, listed first. -/
def closedIssueW : KnownIssue :=
  { search := fun _ => true, state := .isClosed, applyTo := none,
    number := 1, title := "closed first", htmlUrl := "u1" }

/-- Witness fixture: an open registry issue whose pattern matches every text,
listed second. -/
def openIssueW : KnownIssue :=
  { search := fun _ => true, state := .isOpen, applyTo := none,
    number := 2, title := "open second", htmlUrl := "u2" }

/-- Witness fixture: a run context with identity text transform. -/
def ctxW : Ctx := { stepKey := "step", buildkiteLabel := "label", forGithub := fun s => s }

/-- Witness for C1 at a concrete input: the matching closed issue appears
first in the registry, yet classification yields the open issue's record and
no unknown (regression) record. -/
theorem handleError_open_precedence_witness :
    handleError ctxW [closedIssueW, openIssueW] initHEState "boom" none "f.log" none =
      (if openIssueW.number ∈ initHEState.alreadyReported then initHEState
       else
        { initHEState with
          knownErrors := initHEState.knownErrors ++
            [mkIssueError "boom" none "Known issue" "KNOWN_ISSUE" openIssueW false "f.log" none]
          alreadyReported := initHEState.alreadyReported ++ [openIssueW.number] })
    ∧ (handleError ctxW [closedIssueW, openIssueW] initHEState "boom" none "f.log" none).unknownErrors
      = initHEState.unknownErrors :=
  handleError_open_precedence ctxW [closedIssueW, openIssueW] initHEState
    "boom" none "f.log" none openIssueW (by rfl)

/-!
Branch equations for `handleError` and the at-most-once-per-issue invariant.
-/

theorem handleError_eq_open_some (ctx : Ctx) (issues : List KnownIssue)
    (st : HEState) (m : String) (d : Option String) (loc : String)
    (url : Option String) (issue : KnownIssue)
    (h : issues.find? (issueHit ctx (searchStringOf m d) false) = some issue) :
    handleError ctx issues st m d loc url =
      if issue.number ∈ st.alreadyReported then st
      else
        { st with
          knownErrors := st.knownErrors ++
            [mkIssueError m d "Known issue" "KNOWN_ISSUE" issue false loc url]
          alreadyReported := st.alreadyReported ++ [issue.number] } := by
  simp only [handleError, h]

theorem handleError_eq_closed_some (ctx : Ctx) (issues : List KnownIssue)
    (st : HEState) (m : String) (d : Option String) (loc : String)
    (url : Option String) (issue : KnownIssue)
    (h1 : issues.find? (issueHit ctx (searchStringOf m d) false) = none)
    (h2 : issues.find? (issueHit ctx (searchStringOf m d) true) = some issue) :
    handleError ctx issues st m d loc url =
      if issue.number ∈ st.alreadyReported then st
      else
        { st with
          unknownErrors := st.unknownErrors ++
            [mkIssueError m d "Potential regression" "POTENTIAL_REGRESSION"
              issue true loc url]
          alreadyReported := st.alreadyReported ++ [issue.number] } := by
  simp only [handleError, h1, h2]

theorem handleError_eq_no_match (ctx : Ctx) (issues : List KnownIssue)
    (st : HEState) (m : String) (d : Option String) (loc : String)
    (url : Option String)
    (h1 : issues.find? (issueHit ctx (searchStringOf m d) false) = none)
    (h2 : issues.find? (issueHit ctx (searchStringOf m d) true) = none) :
    handleError ctx issues st m d loc url =
      { st with
        unknownErrors := st.unknownErrors ++ [mkUnknownError m d loc url] } := by
  simp only [handleError, h1, h2]

/-- Invariant: every issue number is referenced by at most one record, and
only when it has been marked as already reported. -/
def ReportedInv (st : HEState) : Prop :=
  ∀ n, countRefs st n ≤ 1 ∧ (1 ≤ countRefs st n → n ∈ st.alreadyReported)

theorem countRefs_known_append (st : HEState) (r : ObservedError) (rep : List Nat)
    (n : Nat) :
    countRefs { st with knownErrors := st.knownErrors ++ [r], alreadyReported := rep } n
      = countRefs st n + (if refsTo r n then 1 else 0) := by
  simp only [countRefs, List.countP_append, List.countP_cons, List.countP_nil]
  omega

theorem countRefs_unknown_append (st : HEState) (r : ObservedError) (rep : List Nat)
    (n : Nat) :
    countRefs { st with unknownErrors := st.unknownErrors ++ [r], alreadyReported := rep } n
      = countRefs st n + (if refsTo r n then 1 else 0) := by
  simp only [countRefs, List.countP_append, List.countP_cons, List.countP_nil]
  omega

theorem refsTo_mkIssueError (m : String) (d : Option String)
    (t it : String) (issue : KnownIssue) (b : Bool) (loc : String)
    (url : Option String) (n : Nat) :
    refsTo (mkIssueError m d t it issue b loc url) n = decide (issue.number = n) := rfl

theorem refsTo_mkUnknownError (m : String) (d : Option String) (loc : String)
    (url : Option String) (n : Nat) :
    refsTo (mkUnknownError m d loc url) n = false := rfl

theorem reportedInv_issue_append (st : HEState) (r : ObservedError)
    (num : Nat) (hr : ∀ n, refsTo r n = decide (num = n))
    (h : ReportedInv st) (hnum : num ∉ st.alreadyReported)
    (hcount : ∀ n, countRefs
        { st with
          knownErrors := st.knownErrors ++ [r]
          alreadyReported := st.alreadyReported ++ [num] } n
      = countRefs st n + (if refsTo r n then 1 else 0)) :
    ReportedInv
      { st with
        knownErrors := st.knownErrors ++ [r]
        alreadyReported := st.alreadyReported ++ [num] } := by
  intro n
  rw [hcount n, hr n]
  by_cases hn : num = n
  · have hzero : countRefs st n = 0 := by
      by_contra hpos
      exact hnum (hn ▸ (h n).2 (by omega))
    subst hn
    simp [hzero, List.mem_append]
  · have h1 := (h n).1
    have h2 := (h n).2
    simp only [hn, decide_False, if_false, Nat.add_zero]
    exact ⟨h1, fun hp => List.mem_append.mpr (Or.inl (h2 hp))⟩

theorem handleError_preserves_reportedInv (ctx : Ctx) (issues : List KnownIssue)
    (st : HEState) (m : String) (d : Option String) (loc : String)
    (url : Option String) (h : ReportedInv st) :
    ReportedInv (handleError ctx issues st m d loc url) := by
  cases h1 : issues.find? (issueHit ctx (searchStringOf m d) false) with
  | some issue =>
    rw [handleError_eq_open_some ctx issues st m d loc url issue h1]
    by_cases hrep : issue.number ∈ st.alreadyReported
    · rw [if_pos hrep]
      exact h
    · rw [if_neg hrep]
      exact reportedInv_issue_append st _ issue.number
        (fun n => refsTo_mkIssueError m d _ _ issue false loc url n) h hrep
        (fun n => countRefs_known_append st _ _ n)
  | none =>
    cases h2 : issues.find? (issueHit ctx (searchStringOf m d) true) with
    | some issue =>
      rw [handleError_eq_closed_some ctx issues st m d loc url issue h1 h2]
      by_cases hrep : issue.number ∈ st.alreadyReported
      · rw [if_pos hrep]
        exact h
      · rw [if_neg hrep]
        intro n
        rw [countRefs_unknown_append st _ _ n, refsTo_mkIssueError m d _ _ issue true loc url n]
        by_cases hn : issue.number = n
        · have hzero : countRefs st n = 0 := by
            by_contra hpos
            exact hrep (hn ▸ (h n).2 (by omega))
          subst hn
          simp [hzero, List.mem_append]
        · have hle := (h n).1
          have hmem := (h n).2
          simp only [hn, decide_False, if_false, Nat.add_zero]
          exact ⟨hle, fun hp => List.mem_append.mpr (Or.inl (hmem hp))⟩
    | none =>
      rw [handleError_eq_no_match ctx issues st m d loc url h1 h2]
      intro n
      have heq : countRefs { st with unknownErrors :=
          st.unknownErrors ++ [mkUnknownError m d loc url] } n = countRefs st n := by
        simp [countRefs, List.countP_append, refsTo_mkUnknownError]
      rw [heq]
      exact h n

theorem runHandleErrors_preserves_reportedInv (ctx : Ctx)
    (issues : List KnownIssue) (st : HEState) (errs : List ErrInput)
    (h : ReportedInv st) : ReportedInv (runHandleErrors ctx issues st errs) := by
  induction errs generalizing st with
  | nil => exact h
  | cons e es ih =>
    exact ih _ (handleError_preserves_reportedInv ctx issues st
      e.errorMessage e.errorDetails e.location e.locationUrl h)

theorem reportedInv_init : ReportedInv initHEState := by
  intro n
  have h0 : countRefs initHEState n = 0 := rfl
  rw [h0]
  exact ⟨Nat.zero_le 1, fun hp => absurd hp (by omega)⟩

/-- C2: (i) over any classification run starting from the initial state, every
issue identifier is referenced by at most one emitted record (known and
unknown lists combined); (ii) when pass 1 selects an open issue whose number
was already reported, the classifier state is returned exactly unchanged —
the error is dropped entirely, producing neither a known nor an unknown
record; (iii) the same holds for pass 2 and closed issues. -/
theorem handleError_dedup_by_issue :
    (∀ (ctx : Ctx) (issues : List KnownIssue) (errs : List ErrInput) (n : Nat),
      countRefs (runHandleErrors ctx issues initHEState errs) n ≤ 1)
    ∧ (∀ (ctx : Ctx) (issues : List KnownIssue) (st : HEState) (m : String)
        (d : Option String) (loc : String) (url : Option String)
        (issue : KnownIssue),
        issues.find? (issueHit ctx (searchStringOf m d) false) = some issue →
        issue.number ∈ st.alreadyReported →
        handleError ctx issues st m d loc url = st)
    ∧ (∀ (ctx : Ctx) (issues : List KnownIssue) (st : HEState) (m : String)
        (d : Option String) (loc : String) (url : Option String)
        (issue : KnownIssue),
        issues.find? (issueHit ctx (searchStringOf m d) false) = none →
        issues.find? (issueHit ctx (searchStringOf m d) true) = some issue →
        issue.number ∈ st.alreadyReported →
        handleError ctx issues st m d loc url = st) := by
  refine ⟨?_, ?_, ?_⟩
  · intro ctx issues errs n
    exact (runHandleErrors_preserves_reportedInv ctx issues initHEState errs
      reportedInv_init n).1
  · intro ctx issues st m d loc url issue h hrep
    rw [handleError_eq_open_some ctx issues st m d loc url issue h, if_pos hrep]
  · intro ctx issues st m d loc url issue h1 h2 hrep
    rw [handleError_eq_closed_some ctx issues st m d loc url issue h1 h2, if_pos hrep]

/-- Witness for C2 at a concrete input: two distinct error texts matching the
same open issue; the run references issue number 2 at most once, and the
second call returns the state exactly unchanged. -/
theorem handleError_dedup_by_issue_witness :
    countRefs (runHandleErrors ctxW [openIssueW] initHEState
      [⟨"first text", none, "f.log", none⟩, ⟨"second text", none, "f.log", none⟩]) 2 ≤ 1
    ∧ handleError ctxW [openIssueW]
        ⟨[2], [mkIssueError "first text" none "Known issue" "KNOWN_ISSUE" openIssueW false "f.log" none], []⟩
        "second text" none "f.log" none
      = ⟨[2], [mkIssueError "first text" none "Known issue" "KNOWN_ISSUE" openIssueW false "f.log" none], []⟩ :=
  ⟨handleError_dedup_by_issue.1 ctxW [openIssueW]
      [⟨"first text", none, "f.log", none⟩, ⟨"second text", none, "f.log", none⟩] 2,
    handleError_dedup_by_issue.2.1 ctxW [openIssueW]
      ⟨[2], [mkIssueError "first text" none "Known issue" "KNOWN_ISSUE" openIssueW false "f.log" none], []⟩
      "second text" none "f.log" none openIssueW (by rfl) (by decide)⟩

/-!
Case-insensitivity of the scope guard. The comparison in the source is
`issue.apply_to not in (step_key.lower(), buildkite_label.lower())`; together
with idempotence of lowercasing this gives the case-insensitive reading of
the claim.
-/

theorem toNat_charOfNat_lt (n : Nat) (h : n < 0xd800) : (Char.ofNat n).toNat = n := by
  unfold Char.ofNat
  rw [dif_pos (Or.inl h)]
  simp [Char.ofNatAux, Char.toNat, UInt32.ofNat', UInt32.toNat]

theorem pyLowerChar_idem (c : Char) : pyLowerChar (pyLowerChar c) = pyLowerChar c := by
  unfold pyLowerChar
  by_cases h : 65 ≤ c.toNat ∧ c.toNat ≤ 90
  · rw [if_pos h]
    have ht : (Char.ofNat (c.toNat + 32)).toNat = c.toNat + 32 :=
      toNat_charOfNat_lt _ (by omega)
    rw [if_neg (by rw [ht]; omega)]
  · rw [if_neg h, if_neg h]

theorem map_pyLowerChar_idem (l : List Char) :
    (l.map pyLowerChar).map pyLowerChar = l.map pyLowerChar := by
  induction l with
  | nil => rfl
  | cons c cs ih => simp only [List.map_cons, pyLowerChar_idem c, ih]

theorem pyLower_idem (s : String) : pyLower (pyLower s) = pyLower s :=
  congrArg String.mk (map_pyLowerChar_idem s.data)

theorem applyToSkip_of_scope_mismatch (ctx : Ctx) (issue : KnownIssue) (a : String)
    (ha : issue.applyTo = some a) (hne : a ≠ "")
    (hk : pyLower a ≠ pyLower ctx.stepKey)
    (hl : pyLower a ≠ pyLower ctx.buildkiteLabel) :
    applyToSkip ctx issue = true := by
  unfold applyToSkip
  rw [ha]
  have h1 : a ≠ pyLower ctx.stepKey := by
    intro he
    exact hk (by rw [he, pyLower_idem])
  have h2 : a ≠ pyLower ctx.buildkiteLabel := by
    intro he
    exact hl (by rw [he, pyLower_idem])
  simp [hne, h1, h2]

theorem issueHit_false_of_skip (ctx : Ctx) (s : String) (b : Bool)
    (issue : KnownIssue) (hs : applyToSkip ctx issue = true) :
    issueHit ctx s b issue = false := by
  simp [issueHit, hs]

theorem find?_middle_of_false {α : Type} (p : α → Bool) (pre post : List α)
    (x : α) (hx : p x = false) :
    (pre ++ x :: post).find? p = (pre ++ post).find? p := by
  induction pre with
  | nil => simp [List.find?, hx]
  | cons y ys ih =>
    cases hy : p y with
    | true => simp [List.find?, hy]
    | false => simp [List.find?, hy, ih]

/-- C8: a registry entry with a truthy scope restriction that differs
case-insensitively from both the current build-step key and the build-step
label never matches: its per-pass acceptance test is false for every search
text and both lifecycle passes, and removing it from the registry leaves
every classification outcome unchanged. (Conversely, since the stored
restriction is compared against the lowercased key and label, an accepted
entry's restriction equals one of them case-insensitively.) -/
theorem applyTo_scope_restriction (ctx : Ctx) (pre post : List KnownIssue)
    (st : HEState) (m : String) (d : Option String) (loc : String)
    (url : Option String) (issue : KnownIssue) (a : String)
    (ha : issue.applyTo = some a) (hne : a ≠ "")
    (hk : pyLower a ≠ pyLower ctx.stepKey)
    (hl : pyLower a ≠ pyLower ctx.buildkiteLabel) :
    (∀ (s : String) (b : Bool), issueHit ctx s b issue = false)
    ∧ handleError ctx (pre ++ issue :: post) st m d loc url =
        handleError ctx (pre ++ post) st m d loc url := by
  have hskip := applyToSkip_of_scope_mismatch ctx issue a ha hne hk hl
  have hhit : ∀ (s : String) (b : Bool), issueHit ctx s b issue = false :=
    fun s b => issueHit_false_of_skip ctx s b issue hskip
  refine ⟨hhit, ?_⟩
  simp only [handleError]
  rw [find?_middle_of_false _ pre post issue (hhit _ false),
    find?_middle_of_false _ pre post issue (hhit _ true)]

/-- Witness fixture: an open, always-matching issue scoped to the build step
`nightly`. -/
def scopedIssueW : KnownIssue :=
  { search := fun _ => true, state := .isOpen, applyTo := some "nightly",
    number := 7, title := "scoped", htmlUrl := "u7" }

/-- Witness fixture: a run context whose step key and label differ from
`nightly` case-insensitively. -/
def ctxW2 : Ctx :=
  { stepKey := "Other-Step", buildkiteLabel := "Other Label", forGithub := fun s => s }

/-- Witness for C8 at a concrete input: the scoped issue matches the text but
not the scope, so it never matches and its presence in the registry changes
nothing. -/
theorem applyTo_scope_restriction_witness :
    issueHit ctxW2 "any text" false scopedIssueW = false
    ∧ handleError ctxW2 [scopedIssueW] initHEState "any text" none "f.log" none =
      handleError ctxW2 [] initHEState "any text" none "f.log" none :=
  have h := applyTo_scope_restriction ctxW2 [] [] initHEState "any text" none
    "f.log" none scopedIssueW "nightly" (by rfl) (by decide) (by decide) (by decide)
  ⟨h.1 "any text" false, h.2⟩

/-!
Nonemptiness of grouped output, used to evaluate the failure flag.
-/

theorem insertErrCount_ne_nil (acc : List (ObservedError × Nat)) (e : ObservedError) :
    insertErrCount acc e ≠ [] := by
  cases acc with
  | nil => simp [insertErrCount]
  | cons k rest =>
    obtain ⟨k1, k2⟩ := k
    simp only [insertErrCount]
    split <;> simp

theorem foldl_insertErrCount_ne_nil (l : List ObservedError)
    (acc : List (ObservedError × Nat)) (h : acc ≠ []) :
    l.foldl insertErrCount acc ≠ [] := by
  induction l generalizing acc with
  | nil => exact h
  | cons e es ih => exact ih _ (insertErrCount_ne_nil acc e)

theorem groupIdenticalErrors_ne_nil (l : List ObservedError) (h : l ≠ []) :
    groupIdenticalErrors l ≠ [] := by
  cases l with
  | nil => exact absurd rfl h
  | cons e es =>
    unfold groupIdenticalErrors
    intro hc
    exact foldl_insertErrCount_ne_nil es [(e, 1)] (by simp)
      (List.map_eq_nil_iff.mp hc)

theorem annotateErrorsIsFailure_of_ne_nil (l : List ObservedError) (h : l ≠ [])
    (success : Bool) : annotateErrorsIsFailure l success = true := by
  unfold annotateErrorsIsFailure
  have hg : 0 < (groupIdenticalErrors l).length :=
    List.length_pos.mpr (groupIdenticalErrors_ne_nil l h)
  simp [hg]

/-- C10: an error whose text matches no open issue but matches a closed issue
not yet reported is appended to the unknown-errors list as a potential
regression (the known-errors list is untouched); consequently the unknown
count rises by one, the failure flag of `annotate_errors` is set regardless
of the Buildkite status, and — exactly like an error matching no issue at
all — the record counts toward the unknown-error total that
`annotate_logged_errors` returns as the process exit code. -/
theorem regression_reported_as_unknown :
    (∀ (ctx : Ctx) (issues : List KnownIssue) (st : HEState) (m : String)
        (d : Option String) (loc : String) (url : Option String)
        (issue : KnownIssue),
      issues.find? (issueHit ctx (searchStringOf m d) false) = none →
      issues.find? (issueHit ctx (searchStringOf m d) true) = some issue →
      issue.number ∉ st.alreadyReported →
      handleError ctx issues st m d loc url =
        { st with
          unknownErrors := st.unknownErrors ++
            [mkIssueError m d "Potential regression" "POTENTIAL_REGRESSION"
              issue true loc url]
          alreadyReported := st.alreadyReported ++ [issue.number] }
      ∧ (handleError ctx issues st m d loc url).knownErrors = st.knownErrors
      ∧ (handleError ctx issues st m d loc url).unknownErrors.length
          = st.unknownErrors.length + 1
      ∧ ∀ success, annotateErrorsIsFailure
          (handleError ctx issues st m d loc url).unknownErrors success = true)
    ∧ (∀ (ctx : Ctx) (issues : List KnownIssue) (errs : List ErrInput)
        (e : ErrInput) (issue : KnownIssue),
      issues.find? (issueHit ctx (searchStringOf e.errorMessage e.errorDetails) false) = none →
      issues.find? (issueHit ctx (searchStringOf e.errorMessage e.errorDetails) true) = some issue →
      issue.number ∉ (runHandleErrors ctx issues initHEState errs).alreadyReported →
      annotateLoggedErrorsExitCode ctx issues (errs ++ [e]) =
        (runHandleErrors ctx issues initHEState errs).unknownErrors.length + 1) := by
  have main : ∀ (ctx : Ctx) (issues : List KnownIssue) (st : HEState) (m : String)
      (d : Option String) (loc : String) (url : Option String) (issue : KnownIssue),
      issues.find? (issueHit ctx (searchStringOf m d) false) = none →
      issues.find? (issueHit ctx (searchStringOf m d) true) = some issue →
      issue.number ∉ st.alreadyReported →
      handleError ctx issues st m d loc url =
        { st with
          unknownErrors := st.unknownErrors ++
            [mkIssueError m d "Potential regression" "POTENTIAL_REGRESSION"
              issue true loc url]
          alreadyReported := st.alreadyReported ++ [issue.number] } := by
    intro ctx issues st m d loc url issue h1 h2 hrep
    rw [handleError_eq_closed_some ctx issues st m d loc url issue h1 h2,
      if_neg hrep]
  constructor
  · intro ctx issues st m d loc url issue h1 h2 hrep
    have heq := main ctx issues st m d loc url issue h1 h2 hrep
    refine ⟨heq, by rw [heq], by rw [heq]; simp, ?_⟩
    intro success
    rw [heq]
    exact annotateErrorsIsFailure_of_ne_nil _ (by simp) success
  · intro ctx issues errs e issue h1 h2 hrep
    have hrun : runHandleErrors ctx issues initHEState (errs ++ [e]) =
        handleError ctx issues (runHandleErrors ctx issues initHEState errs)
          e.errorMessage e.errorDetails e.location e.locationUrl := by
      unfold runHandleErrors
      rw [List.foldl_append]
      rfl
    have heq := main ctx issues (runHandleErrors ctx issues initHEState errs)
      e.errorMessage e.errorDetails e.location e.locationUrl issue h1 h2 hrep
    unfold annotateLoggedErrorsExitCode
    rw [hrun, heq]
    simp

/-- Witness for C10 at a concrete input: a run over one error text matching
only the closed registry issue returns exit code 1 (one unknown error), and
the failure flag is set even when the Buildkite status was successful. -/
theorem regression_reported_as_unknown_witness :
    annotateLoggedErrorsExitCode ctxW [closedIssueW] [⟨"btext", none, "f.log", none⟩] =
      (runHandleErrors ctxW [closedIssueW] initHEState []).unknownErrors.length + 1
    ∧ ∀ success, annotateErrorsIsFailure
        (handleError ctxW [closedIssueW] initHEState "btext" none "f.log" none).unknownErrors
        success = true :=
  ⟨regression_reported_as_unknown.2 ctxW [closedIssueW] []
      ⟨"btext", none, "f.log", none⟩ closedIssueW (by rfl) (by rfl) (by decide),
    (regression_reported_as_unknown.1 ctxW [closedIssueW] initHEState "btext"
      none "f.log" none closedIssueW (by rfl) (by rfl) (by decide)).2.2.2⟩

/-!
Correctness of `group_identical_errors` against the spec's aggregation
contract (claim C9). The dict groups by occurrence-blind record equality; on
lists of classified records — where the (kind, message, details, location)
key determines the remaining fields, because a single run never emits two
records for the same issue identifier and location data is a function of the
location — this coincides with grouping by the spec's four-field key.
-/

theorem obsKeyEq_iff (r s : ObservedError) :
    obsKeyEq r s = true ↔
      ({ r with occurrences := 1 } : ObservedError) = { s with occurrences := 1 } :=
  decide_eq_true_iff

theorem obsKeyEq_refl (r : ObservedError) : obsKeyEq r r = true :=
  obsKeyEq_iff r r |>.mpr rfl

theorem obsKeyEq_symm {r s : ObservedError} (h : obsKeyEq r s = true) :
    obsKeyEq s r = true :=
  obsKeyEq_iff s r |>.mpr ((obsKeyEq_iff r s |>.mp h).symm)

theorem obsKeyEq_trans {r s t : ObservedError} (h1 : obsKeyEq r s = true)
    (h2 : obsKeyEq s t = true) : obsKeyEq r t = true :=
  obsKeyEq_iff r t |>.mpr
    ((obsKeyEq_iff r s |>.mp h1).trans (obsKeyEq_iff s t |>.mp h2))

theorem key4_eq_of_obsKeyEq {r s : ObservedError} (h : obsKeyEq r s = true) :
    key4 r = key4 s := by
  have h2 := obsKeyEq_iff r s |>.mp h
  have h3 := congrArg key4 h2
  exact h3

theorem insertErrCount_map_fst_of_any (acc : List (ObservedError × Nat))
    (e : ObservedError) (h : acc.any (fun p => obsKeyEq p.1 e) = true) :
    (insertErrCount acc e).map Prod.fst = acc.map Prod.fst := by
  induction acc with
  | nil => simp at h
  | cons k rest ih =>
    obtain ⟨k1, k2⟩ := k
    cases hk : obsKeyEq k1 e with
    | true => simp [insertErrCount, hk]
    | false =>
      have hrest : rest.any (fun p => obsKeyEq p.1 e) = true := by
        simpa [List.any_cons, hk] using h
      simp [insertErrCount, hk, ih hrest]

theorem insertErrCount_of_not_any (acc : List (ObservedError × Nat))
    (e : ObservedError) (h : acc.any (fun p => obsKeyEq p.1 e) = false) :
    insertErrCount acc e = acc ++ [(e, 1)] := by
  induction acc with
  | nil => rfl
  | cons k rest ih =>
    obtain ⟨k1, k2⟩ := k
    simp only [List.any_cons, Bool.or_eq_false_iff] at h
    simp [insertErrCount, h.1, ih h.2]

theorem insertErrCount_val (acc : List (ObservedError × Nat)) (x : ObservedError)
    (f : ObservedError → Nat)
    (hdist : List.Pairwise (fun r s => obsKeyEq r s = false) (acc.map Prod.fst))
    (hacc : ∀ p ∈ acc, p.2 = f p.1)
    (hmiss : acc.any (fun p => obsKeyEq p.1 x) = false → f x = 0) :
    ∀ q ∈ insertErrCount acc x,
      q.2 = f q.1 + (if obsKeyEq x q.1 = true then 1 else 0) := by
  induction acc with
  | nil =>
    intro q hq
    simp only [insertErrCount, List.mem_singleton] at hq
    subst hq
    rw [hmiss (by simp), if_pos (obsKeyEq_refl x)]
  | cons k rest ih =>
    obtain ⟨k1, k2⟩ := k
    rw [List.map_cons] at hdist
    have hpair := List.pairwise_cons.mp hdist
    intro q hq
    cases hk : obsKeyEq k1 x with
    | true =>
      simp only [insertErrCount, hk, if_true] at hq
      rcases List.mem_cons.mp hq with hq1 | hq2
      · subst hq1
        have hv : k2 = f k1 := hacc (k1, k2) (List.mem_cons_self _ _)
        rw [if_pos (obsKeyEq_symm hk)]
        simp only []
        omega
      · have hv : q.2 = f q.1 := hacc q (List.mem_cons_of_mem _ hq2)
        have hne : ¬ obsKeyEq x q.1 = true := by
          intro htrue
          have h1 : obsKeyEq k1 q.1 = true := obsKeyEq_trans hk htrue
          have h2 : obsKeyEq k1 q.1 = false :=
            hpair.1 q.1 (List.mem_map_of_mem Prod.fst hq2)
          rw [h1] at h2
          simp at h2
        rw [if_neg hne]
        omega
    | false =>
      simp only [insertErrCount, hk, Bool.false_eq_true, if_false] at hq
      rcases List.mem_cons.mp hq with hq1 | hq2
      · subst hq1
        have hv : k2 = f k1 := hacc (k1, k2) (List.mem_cons_self _ _)
        have hne : ¬ obsKeyEq x k1 = true := by
          intro htrue
          have := obsKeyEq_symm htrue
          rw [this] at hk
          simp at hk
        rw [if_neg hne]
        simp only []
        omega
      · exact ih hpair.2
          (fun p hp => hacc p (List.mem_cons_of_mem _ hp))
          (fun h => hmiss (by simp [List.any_cons, hk, h]))
          q hq2

theorem dedupByKey4Aux_append (seen : List (String × String × Option String × String))
    (xs : List ObservedError) (x : ObservedError) :
    dedupByKey4Aux seen (xs ++ [x]) =
      dedupByKey4Aux seen xs ++
        (if key4 x ∈ seen ∨ key4 x ∈ xs.map key4 then [] else [x]) := by
  induction xs generalizing seen with
  | nil =>
    by_cases h : key4 x ∈ seen
    · simp [dedupByKey4Aux, h]
    · simp [dedupByKey4Aux, h]
  | cons y ys ih =>
    by_cases hy : key4 y ∈ seen
    · simp only [List.cons_append, dedupByKey4Aux, if_pos hy, List.append_eq]
      rw [ih seen]
      by_cases hx : key4 x ∈ seen ∨ key4 x ∈ ys.map key4
      · have hB : key4 x ∈ seen ∨ key4 x ∈ (y :: ys).map key4 := by
          rcases hx with h1 | h2
          · exact Or.inl h1
          · exact Or.inr (by rw [List.map_cons]; exact List.mem_cons_of_mem _ h2)
        rw [if_pos hx, if_pos hB]
      · have hB : ¬(key4 x ∈ seen ∨ key4 x ∈ (y :: ys).map key4) := by
          intro hB
          rcases hB with h1 | h2
          · exact hx (Or.inl h1)
          · rw [List.map_cons] at h2
            rcases List.mem_cons.mp h2 with he | hm
            · exact hx (Or.inl (by rw [he]; exact hy))
            · exact hx (Or.inr hm)
        rw [if_neg hx, if_neg hB]
    · simp only [List.cons_append, dedupByKey4Aux, if_neg hy, List.append_eq]
      rw [ih (seen ++ [key4 y])]
      by_cases hx : key4 x ∈ seen ++ [key4 y] ∨ key4 x ∈ ys.map key4
      · have hB : key4 x ∈ seen ∨ key4 x ∈ (y :: ys).map key4 := by
          rcases hx with h1 | h2
          · rcases List.mem_append.mp h1 with h3 | h4
            · exact Or.inl h3
            · have hxy : key4 x = key4 y := List.mem_singleton.mp h4
              exact Or.inr (by rw [List.map_cons, hxy]; exact List.mem_cons_self _ _)
          · exact Or.inr (by rw [List.map_cons]; exact List.mem_cons_of_mem _ h2)
        rw [if_pos hx, if_pos hB]
      · have hB : ¬(key4 x ∈ seen ∨ key4 x ∈ (y :: ys).map key4) := by
          intro hB
          rcases hB with h1 | h2
          · exact hx (Or.inl (List.mem_append.mpr (Or.inl h1)))
          · rw [List.map_cons] at h2
            rcases List.mem_cons.mp h2 with he | hm
            · exact hx (Or.inl (List.mem_append.mpr (Or.inr (List.mem_singleton.mpr he))))
            · exact hx (Or.inr hm)
        rw [if_neg hx, if_neg hB]

theorem countsOf_spec (E : List ObservedError)
    (hE : ∀ r ∈ E, ∀ s ∈ E, key4 r = key4 s →
      ({ r with occurrences := 1 } : ObservedError) = { s with occurrences := 1 })
    (xs : List ObservedError) (hsub : ∀ a ∈ xs, a ∈ E) :
    ((xs.foldl insertErrCount []).map Prod.fst = dedupByKey4Aux [] xs)
    ∧ (∀ p ∈ xs.foldl insertErrCount [], p.1 ∈ xs)
    ∧ (∀ p ∈ xs.foldl insertErrCount [],
        p.2 = xs.countP (fun s => obsKeyEq s p.1))
    ∧ List.Pairwise (fun r s => obsKeyEq r s = false)
        ((xs.foldl insertErrCount []).map Prod.fst)
    ∧ (∀ s ∈ xs, ∃ p ∈ xs.foldl insertErrCount [], obsKeyEq p.1 s = true) := by
  induction xs using List.reverseRecOn with
  | nil =>
    refine ⟨rfl, ?_, ?_, ?_, ?_⟩
    · intro p hp
      simp at hp
    · intro p hp
      simp at hp
    · simp [List.Pairwise.nil]
    · intro s hs
      simp at hs
  | append_singleton xs x ih =>
    have hsub2 : ∀ a ∈ xs, a ∈ E := fun a hax => hsub a (List.mem_append.mpr (Or.inl hax))
    have hxE : x ∈ E := hsub x (List.mem_append.mpr (Or.inr (List.mem_singleton.mpr rfl)))
    obtain ⟨ha, hb, hc, hd, he⟩ := ih hsub2
    have hfold : (xs ++ [x]).foldl insertErrCount [] =
        insertErrCount (xs.foldl insertErrCount []) x := by
      rw [List.foldl_append]
      rfl
    have hmiss0 : (xs.foldl insertErrCount []).any (fun p => obsKeyEq p.1 x) = false →
        xs.countP (fun s => obsKeyEq s x) = 0 := by
      intro hno
      rw [List.countP_eq_zero]
      intro s hs habs
      obtain ⟨p, hp, hpe⟩ := he s hs
      have hpx : obsKeyEq p.1 x = true := obsKeyEq_trans hpe habs
      exact absurd hpx (List.any_eq_false.mp hno p hp)
    have hcstep : ∀ p ∈ (xs ++ [x]).foldl insertErrCount [],
        p.2 = (xs ++ [x]).countP (fun s => obsKeyEq s p.1) := by
      intro p hp
      rw [hfold] at hp
      have hval := insertErrCount_val (xs.foldl insertErrCount []) x
        (fun k => xs.countP (fun s => obsKeyEq s k)) hd hc hmiss0 p hp
      rw [hval, List.countP_append, List.countP_cons, List.countP_nil]
      simp only [Nat.zero_add]
    cases hany : (xs.foldl insertErrCount []).any (fun p => obsKeyEq p.1 x) with
    | true =>
      obtain ⟨p0, hp0, hp0e⟩ := List.any_eq_true.mp hany
      have hmapfst : ((xs ++ [x]).foldl insertErrCount []).map Prod.fst =
          (xs.foldl insertErrCount []).map Prod.fst := by
        rw [hfold]
        exact insertErrCount_map_fst_of_any _ x hany
      have hcond : key4 x ∈ ([] : List (String × String × Option String × String))
          ∨ key4 x ∈ xs.map key4 := by
        refine Or.inr ?_
        have hk : key4 p0.1 = key4 x := key4_eq_of_obsKeyEq hp0e
        rw [← hk]
        exact List.mem_map_of_mem key4 (hb p0 hp0)
      refine ⟨?_, ?_, hcstep, ?_, ?_⟩
      · rw [hmapfst, ha, dedupByKey4Aux_append, if_pos hcond, List.append_nil]
      · intro p hp
        have hm : p.1 ∈ ((xs ++ [x]).foldl insertErrCount []).map Prod.fst :=
          List.mem_map_of_mem Prod.fst hp
        rw [hmapfst] at hm
        obtain ⟨q, hq, hqe⟩ := List.mem_map.mp hm
        exact List.mem_append.mpr (Or.inl (hqe ▸ hb q hq))
      · rw [hmapfst]
        exact hd
      · intro s hs
        rcases List.mem_append.mp hs with hs1 | hs2
        · obtain ⟨p, hp, hpe⟩ := he s hs1
          have hm : p.1 ∈ ((xs ++ [x]).foldl insertErrCount []).map Prod.fst := by
            rw [hmapfst]
            exact List.mem_map_of_mem Prod.fst hp
          obtain ⟨q, hq, hqe⟩ := List.mem_map.mp hm
          exact ⟨q, hq, by rw [hqe]; exact hpe⟩
        · have hsx : s = x := List.mem_singleton.mp hs2
          have hm : p0.1 ∈ ((xs ++ [x]).foldl insertErrCount []).map Prod.fst := by
            rw [hmapfst]
            exact List.mem_map_of_mem Prod.fst hp0
          obtain ⟨q, hq, hqe⟩ := List.mem_map.mp hm
          exact ⟨q, hq, by rw [hqe, hsx]; exact hp0e⟩
    | false =>
      have hins : insertErrCount (xs.foldl insertErrCount []) x =
          xs.foldl insertErrCount [] ++ [(x, 1)] :=
        insertErrCount_of_not_any _ x hany
      have hallfalse : ∀ p ∈ xs.foldl insertErrCount [], obsKeyEq p.1 x = false := by
        intro p hp
        have := List.any_eq_false.mp hany p hp
        cases hval : obsKeyEq p.1 x with
        | true => exact absurd hval this
        | false => rfl
      have hcond : ¬(key4 x ∈ ([] : List (String × String × Option String × String))
          ∨ key4 x ∈ xs.map key4) := by
        intro hB
        rcases hB with h1 | h2
        · simp at h1
        · obtain ⟨s, hs, hse⟩ := List.mem_map.mp h2
          have hbr : obsKeyEq s x = true :=
            obsKeyEq_iff s x |>.mpr (hE s (hsub2 s hs) x hxE hse)
          obtain ⟨p, hp, hpe⟩ := he s hs
          have hpx : obsKeyEq p.1 x = true := obsKeyEq_trans hpe hbr
          rw [hallfalse p hp] at hpx
          simp at hpx
      refine ⟨?_, ?_, hcstep, ?_, ?_⟩
      · rw [hfold, hins, List.map_append, ha, dedupByKey4Aux_append, if_neg hcond]
        rfl
      · intro p hp
        rw [hfold, hins] at hp
        rcases List.mem_append.mp hp with hp1 | hp2
        · exact List.mem_append.mpr (Or.inl (hb p hp1))
        · have : p = (x, 1) := List.mem_singleton.mp hp2
          rw [this]
          exact List.mem_append.mpr (Or.inr (List.mem_singleton.mpr rfl))
      · rw [hfold, hins, List.map_append]
        apply List.pairwise_append.mpr
        refine ⟨hd, by simp, ?_⟩
        intro r hr b hbmem
        have hbx : b = x := by simpa using hbmem
        obtain ⟨q, hq, hqe⟩ := List.mem_map.mp hr
        rw [hbx, ← hqe]
        exact hallfalse q hq
      · intro s hs
        rcases List.mem_append.mp hs with hs1 | hs2
        · obtain ⟨p, hp, hpe⟩ := he s hs1
          refine ⟨p, ?_, hpe⟩
          rw [hfold, hins]
          exact List.mem_append.mpr (Or.inl hp)
        · have hsx : s = x := List.mem_singleton.mp hs2
          refine ⟨(x, 1), ?_, by rw [hsx]; exact obsKeyEq_refl x⟩
          rw [hfold, hins]
          exact List.mem_append.mpr (Or.inr (List.mem_singleton.mpr rfl))

/-- C9: on a list of classified records — where the four-field key (kind,
message, details, location) determines the remaining compared fields, as is
the case for every list one classification run emits — the dict grouping of
`group_identical_errors` coincides with the specification's aggregation:
structurally-equal records collapse into their first-seen representative,
the surviving record's occurrence count is the group size, and distinct
groups keep first-seen order. -/
theorem groupIdenticalErrors_matches_spec (errors : List ObservedError)
    (hE : ∀ r ∈ errors, ∀ s ∈ errors, key4 r = key4 s →
      ({ r with occurrences := 1 } : ObservedError) = { s with occurrences := 1 }) :
    groupIdenticalErrors errors = groupBySpecModel errors := by
  obtain ⟨ha, hb, hc, _, _⟩ := countsOf_spec errors hE errors (fun a hx => hx)
  unfold groupIdenticalErrors groupBySpecModel
  rw [← ha, List.map_map]
  apply List.map_congr_left
  intro p hp
  have hkey : errors.countP (fun s => obsKeyEq s p.1) =
      errors.countP (fun s => decide (key4 s = key4 p.1)) := by
    apply List.countP_congr
    intro s hs
    constructor
    · intro ht
      exact decide_eq_true (key4_eq_of_obsKeyEq ht)
    · intro hdec
      exact obsKeyEq_iff s p.1 |>.mpr
        (hE s hs p.1 (hb p hp) (of_decide_eq_true hdec))
  show ({ p.1 with occurrences := p.2 } : ObservedError) =
    { p.1 with occurrences := errors.countP (fun s => decide (key4 s = key4 p.1)) }
  rw [hc p hp, hkey]

/-- Witness fixture: an unknown-error record with message `alpha`. -/
def obsErrW1 : ObservedError := mkUnknownError "alpha" none "f.log" none

/-- Witness fixture: an unknown-error record with message `beta`. -/
def obsErrW2 : ObservedError := mkUnknownError "beta" none "f.log" none

/-- Witness for C9 at a concrete input: three records with one duplicate
collapse to two groups with counts 2 and 1, in first-seen order, and the dict
grouping equals the spec-side grouping. -/
theorem groupIdenticalErrors_matches_spec_witness :
    groupIdenticalErrors [obsErrW1, obsErrW2, obsErrW1] =
      groupBySpecModel [obsErrW1, obsErrW2, obsErrW1]
    ∧ groupIdenticalErrors [obsErrW1, obsErrW2, obsErrW1] =
      [{ obsErrW1 with occurrences := 2 }, { obsErrW2 with occurrences := 1 }] :=
  ⟨groupIdenticalErrors_matches_spec [obsErrW1, obsErrW2, obsErrW1] (by decide),
    by decide⟩
